import Mathlib

/-! # Active graphical session detector (`user-logged-in.cxx`)

A shallow embedding of `LoginManager::hasSession`,
`LoginManager::checkSessionForUser` and `main` of `src/user-logged-in.cxx`.

The bus is modelled by the replies it gives: the `ListSessions` reply, and a
function from object path to the `GetAll` reply of that path.  What the
program does to the outside is recorded in a `Streams` value: the object
paths of the `GetAll` requests in the order they were issued, and the text
written to `std::cerr` and `std::cout`.
-/

namespace UserLoggedIn

/-! ## Data model -/

/-- A D-Bus value as the program sees it through `dbus_message_iter_get_arg_type`
and `dbus_message_iter_get_basic`: the two type tags the code tests
(`DBUS_TYPE_STRING`, `DBUS_TYPE_OBJECT_PATH`) carry their text, the other
types are told apart only by their tag. -/
inductive DBusValue where
  | string (s : String)
  | objectPath (p : String)
  | uint32 (n : Nat)
  | uint64 (n : Nat)
  | boolean (b : Bool)
  | container
  deriving DecidableEq

/-- Outcome of `dbus_connection_send_with_reply_and_block` for `ListSessions`:
the error was set, or the reply's first argument is not an array, or it is an
array of records, each record a sequence of typed fields. -/
inductive ListSessionsReply where
  | error (message : String)
  | notArray
  | array (records : List (List DBusValue))
  deriving DecidableEq

/-- Outcome of `dbus_connection_send_with_reply_and_block` for `GetAll`:
the error was set, or the reply's first argument is not an array, or it is an
array of dictionary entries, each a string key followed by a variant. -/
inductive GetAllReply where
  | error (message : String)
  | notArray
  | array (entries : List (String × DBusValue))
  deriving DecidableEq

/-- The observable effects of a run. -/
structure Streams where
  requests : List String
  stderr : String
  stdout : String
  deriving DecidableEq

/-- Nothing requested, nothing written. -/
def Streams.empty : Streams := ⟨[], "", ""⟩

/-- The statement `std::cerr << text << std::endl`. -/
def Streams.cerr (io : Streams) (text : String) : Streams :=
  { io with stderr := io.stderr ++ text ++ "\n" }

/-- The statement `std::cout << text << std::endl`. -/
def Streams.cout (io : Streams) (text : String) : Streams :=
  { io with stdout := io.stdout ++ text ++ "\n" }

/-- A `GetAll` request sent for `objectPath`. -/
def Streams.request (io : Streams) (objectPath : String) : Streams :=
  { io with requests := io.requests ++ [objectPath] }

/-- The constant `EXIT_SUCCESS` of `<cstdlib>`. -/
def EXIT_SUCCESS : Nat := 0

/-- The constant `EXIT_FAILURE` of `<cstdlib>`. -/
def EXIT_FAILURE : Nat := 1

/-! ## `LoginManager::checkSessionForUser` -/

/-- One iteration of the `while` loop over the dictionary (lines 113-141):
the flags `(userMatches, isGraphical)` after looking at one entry. -/
def propertyStep (username : String) (entry : String × DBusValue)
    (flags : Bool × Bool) : Bool × Bool :=
  if entry.1 = "Name" then
    match entry.2 with
    | .string value => if value = username then (true, flags.2) else flags
    | _ => flags
  else if entry.1 = "Type" then
    match entry.2 with
    | .string value =>
      if value = "x11" ∨ value = "wayland" then (flags.1, true) else flags
    | _ => flags
  else flags

/-- The `while` loop over the dictionary entries (lines 113-141). -/
def propertyLoop (username : String) :
    List (String × DBusValue) → Bool × Bool → Bool × Bool
  | [], flags => flags
  | entry :: rest, flags => propertyLoop username rest (propertyStep username entry flags)

/-- The method `LoginManager::checkSessionForUser` (lines 83-146): the reply of
`GetAll` for `objectPath` decides the two flags; a bus error and a reply that
is not an array are logged and give false. -/
def checkSessionForUser (getAll : String → GetAllReply) (objectPath username : String)
    (io : Streams) : Bool × Streams :=
  let io := io.request objectPath
  match getAll objectPath with
  | .error message => (false, io.cerr ("error: " ++ message ++ "."))
  | .notArray => (false, io.cerr "Argument is not an array")
  | .array entries =>
    let flags := propertyLoop username entries (false, false)
    (flags.1 && flags.2, io)

/-! ## `LoginManager::hasSession` -/

/-- The inner `while` loop over the fields of one record (lines 63-73); the
result is `sessionFound`.  For a field of type `DBUS_TYPE_OBJECT_PATH`,
`dbus_message_iter_get_basic` yields the path text, never a null pointer, so
the test `object_path != nullptr` always passes. -/
def fieldLoop (getAll : String → GetAllReply) (username : String) :
    List DBusValue → Streams → Bool × Streams
  | [], io => (false, io)
  | .objectPath object_path :: rest, io =>
    let r := checkSessionForUser getAll object_path username io
    if r.1 then (true, r.2) else fieldLoop getAll username rest r.2
  | _ :: rest, io => fieldLoop getAll username rest io

/-- The outer `while` loop over the records (lines 61-76). -/
def recordLoop (getAll : String → GetAllReply) (username : String) :
    List (List DBusValue) → Streams → Bool × Streams
  | [], io => (false, io)
  | record :: rest, io =>
    let r := fieldLoop getAll username record io
    if r.1 then (true, r.2) else recordLoop getAll username rest r.2

/-- The method `LoginManager::hasSession` (lines 36-81): a bus error and a
reply that is not an array are logged and give false, an array is walked by
the two nested loops. -/
def hasSession (listSessions : ListSessionsReply) (getAll : String → GetAllReply)
    (username : String) (io : Streams) : Bool × Streams :=
  match listSessions with
  | .error message => (false, io.cerr ("error: " ++ message ++ "."))
  | .notArray => (false, io.cerr "Argument is not an array")
  | .array records => recordLoop getAll username records io

/-! ## `main` -/

/-- The system bus as one run of the program meets it: `connect` is the error
message of `dbus_bus_get` when it fails. -/
structure Bus where
  connect : Option String
  listSessions : ListSessionsReply
  getAll : String → GetAllReply

/-- The function `main` (lines 148-164) together with the constructor of
`LoginManager` (lines 20-29): `prog` is `argv[0]`, `args` the remaining
arguments, the result is the exit status and the effects. -/
def main (bus : Bus) (prog : String) (args : List String) : Nat × Streams :=
  match args with
  | [username] =>
    match bus.connect with
    | some message => (EXIT_FAILURE, Streams.empty.cerr ("error: " ++ message ++ "."))
    | none =>
      let r := hasSession bus.listSessions bus.getAll username Streams.empty
      if r.1 then
        (EXIT_SUCCESS, r.2.cout ("User " ++ username ++ " has an active session."))
      else
        (EXIT_SUCCESS, r.2.cout ("User " ++ username ++ " does not have an active session."))
  | _ => (EXIT_FAILURE, Streams.empty.cerr ("Usage: " ++ prog ++ " <username>"))

/-! ## Vocabulary of the specification -/

/-- The object paths carried by the fields of one session record, in order. -/
def objectPaths : List DBusValue → List String
  | [] => []
  | .objectPath p :: rest => p :: objectPaths rest
  | _ :: rest => objectPaths rest

/-- The session handles of an array-shaped `ListSessions` reply: record by
record, field by field. -/
def handles : List (List DBusValue) → List String
  | [] => []
  | record :: rest => objectPaths record ++ handles rest

/-- The verdict of the Inspector on one handle. -/
def inspect (getAll : String → GetAllReply) (username objectPath : String) : Bool :=
  (checkSessionForUser getAll objectPath username Streams.empty).1

/-- A sequence cut off immediately after its first element satisfying `q`. -/
def cutAfterFirst (q : String → Bool) (l : List String) : List String :=
  l.takeWhile (fun h => !q h) ++ (l.dropWhile (fun h => !q h)).take 1

/-- The match predicate in the words of the specification: the property set
has an entry `Name` holding the string `username` and an entry `Type` holding
the string `x11` or `wayland`. -/
def GraphicalSessionOf (username : String) (entries : List (String × DBusValue)) : Prop :=
  (∃ e ∈ entries, e.1 = "Name" ∧ e.2 = .string username) ∧
  (∃ e ∈ entries, e.1 = "Type" ∧ (e.2 = .string "x11" ∨ e.2 = .string "wayland"))

instance (username : String) (entries : List (String × DBusValue)) :
    Decidable (GraphicalSessionOf username entries) := by
  unfold GraphicalSessionOf; infer_instance

/-- A record with the fields equal to the object path `h` removed. -/
def removeHandle (h : String) (record : List DBusValue) : List DBusValue :=
  record.filter (fun f => decide (f ≠ .objectPath h))

/-! ## Lemmas on the property loop -/

theorem propertyStep_eq (u : String) (e : String × DBusValue) (a b : Bool) :
    propertyStep u e (a, b) =
      (a || decide (e.1 = "Name" ∧ e.2 = .string u),
       b || decide (e.1 = "Type" ∧ (e.2 = .string "x11" ∨ e.2 = .string "wayland"))) := by
  obtain ⟨k, v⟩ := e
  unfold propertyStep
  by_cases hn : k = "Name"
  · subst hn
    cases v <;> simp
    rename_i s
    by_cases hs : s = u <;> simp [hs]
  · by_cases ht : k = "Type"
    · subst ht
      cases v <;> simp
      rename_i s
      by_cases hs : s = "x11" ∨ s = "wayland" <;> simp [hs]
    · simp [hn, ht]

theorem propertyLoop_eq (u : String) (es : List (String × DBusValue)) (a b : Bool) :
    propertyLoop u es (a, b) =
      (a || es.any (fun e => decide (e.1 = "Name" ∧ e.2 = .string u)),
       b || es.any (fun e =>
          decide (e.1 = "Type" ∧ (e.2 = .string "x11" ∨ e.2 = .string "wayland")))) := by
  induction es generalizing a b with
  | nil => simp [propertyLoop]
  | cons e rest ih =>
    simp only [propertyLoop, propertyStep_eq, ih, List.any_cons, Bool.or_assoc]

theorem propertyLoop_true_iff (u : String) (es : List (String × DBusValue)) :
    ((propertyLoop u es (false, false)).1 && (propertyLoop u es (false, false)).2) = true ↔
      GraphicalSessionOf u es := by
  rw [propertyLoop_eq]
  simp [GraphicalSessionOf]

/-! ## Lemmas on the Inspector -/

theorem check_fst (getAll : String → GetAllReply) (p u : String) (io : Streams) :
    (checkSessionForUser getAll p u io).1 = inspect getAll u p := by
  unfold inspect checkSessionForUser
  cases getAll p <;> rfl

theorem check_requests (getAll : String → GetAllReply) (p u : String) (io : Streams) :
    (checkSessionForUser getAll p u io).2.requests = io.requests ++ [p] := by
  unfold checkSessionForUser
  cases getAll p <;> rfl

theorem check_stdout (getAll : String → GetAllReply) (p u : String) (io : Streams) :
    (checkSessionForUser getAll p u io).2.stdout = io.stdout := by
  unfold checkSessionForUser
  cases getAll p <;> rfl

theorem inspect_array (getAll : String → GetAllReply) (u p : String)
    (es : List (String × DBusValue)) (h : getAll p = .array es) :
    inspect getAll u p = true ↔ GraphicalSessionOf u es := by
  unfold inspect checkSessionForUser
  rw [h]
  exact propertyLoop_true_iff u es

theorem inspect_error (getAll : String → GetAllReply) (u p message : String)
    (h : getAll p = .error message) : inspect getAll u p = false := by
  unfold inspect checkSessionForUser
  rw [h]

theorem inspect_notArray (getAll : String → GetAllReply) (u p : String)
    (h : getAll p = .notArray) : inspect getAll u p = false := by
  unfold inspect checkSessionForUser
  rw [h]

/-! ## Lemmas on the cut-off sequence -/

theorem cutAfterFirst_nil (q : String → Bool) : cutAfterFirst q [] = [] := rfl

theorem cutAfterFirst_cons (q : String → Bool) (h : String) (l : List String) :
    cutAfterFirst q (h :: l) = if q h then [h] else h :: cutAfterFirst q l := by
  unfold cutAfterFirst
  by_cases hq : q h <;> simp [List.takeWhile_cons, List.dropWhile_cons, hq]

theorem cutAfterFirst_append (q : String → Bool) (a b : List String) :
    cutAfterFirst q (a ++ b) = if a.any q then cutAfterFirst q a else a ++ cutAfterFirst q b := by
  induction a with
  | nil => simp [cutAfterFirst_nil]
  | cons h t ih =>
    by_cases hq : q h
    · simp [cutAfterFirst_cons, hq]
    · simp only [List.cons_append, cutAfterFirst_cons, hq, ih, List.any_cons]
      by_cases ht : t.any q <;> simp [ht]

theorem cutAfterFirst_of_none (q : String → Bool) (l : List String)
    (h : l.any q = false) : cutAfterFirst q l = l := by
  induction l with
  | nil => rfl
  | cons a t ih =>
    simp only [List.any_cons, Bool.or_eq_false_iff] at h
    simp [cutAfterFirst_cons, h.1, ih h.2]

/-! ## Lemmas on the enumeration loops -/

theorem fieldLoop_fst (getAll : String → GetAllReply) (u : String) (fs : List DBusValue)
    (io : Streams) :
    (fieldLoop getAll u fs io).1 = (objectPaths fs).any (inspect getAll u) := by
  induction fs generalizing io with
  | nil => rfl
  | cons f rest ih =>
    cases f <;> simp only [fieldLoop, objectPaths, ih]
    rename_i p
    simp only [check_fst, List.any_cons]
    by_cases hq : inspect getAll u p <;> simp [hq, ih]

theorem fieldLoop_requests (getAll : String → GetAllReply) (u : String) (fs : List DBusValue)
    (io : Streams) :
    (fieldLoop getAll u fs io).2.requests =
      io.requests ++ cutAfterFirst (inspect getAll u) (objectPaths fs) := by
  induction fs generalizing io with
  | nil => simp [fieldLoop, objectPaths, cutAfterFirst_nil]
  | cons f rest ih =>
    cases f <;> simp only [fieldLoop, objectPaths, ih]
    rename_i p
    simp only [check_fst, cutAfterFirst_cons]
    by_cases hq : inspect getAll u p <;> simp [hq, ih, check_requests]

theorem fieldLoop_stdout (getAll : String → GetAllReply) (u : String) (fs : List DBusValue)
    (io : Streams) : (fieldLoop getAll u fs io).2.stdout = io.stdout := by
  induction fs generalizing io with
  | nil => rfl
  | cons f rest ih =>
    cases f <;> simp only [fieldLoop, ih]
    rename_i p
    simp only [check_fst]
    by_cases hq : inspect getAll u p <;> simp [hq, ih, check_stdout]

theorem recordLoop_fst (getAll : String → GetAllReply) (u : String)
    (rs : List (List DBusValue)) (io : Streams) :
    (recordLoop getAll u rs io).1 = (handles rs).any (inspect getAll u) := by
  induction rs generalizing io with
  | nil => rfl
  | cons r rest ih =>
    simp only [recordLoop, handles, List.any_append, fieldLoop_fst]
    by_cases hq : (objectPaths r).any (inspect getAll u) <;> simp [hq, ih]

theorem recordLoop_requests (getAll : String → GetAllReply) (u : String)
    (rs : List (List DBusValue)) (io : Streams) :
    (recordLoop getAll u rs io).2.requests =
      io.requests ++ cutAfterFirst (inspect getAll u) (handles rs) := by
  induction rs generalizing io with
  | nil => simp [recordLoop, handles, cutAfterFirst_nil]
  | cons r rest ih =>
    simp only [recordLoop, handles, cutAfterFirst_append, fieldLoop_fst]
    by_cases hq : (objectPaths r).any (inspect getAll u)
    · simp [hq, fieldLoop_requests]
    · have hq' : (objectPaths r).any (inspect getAll u) = false := by simpa using hq
      simp [hq', ih, fieldLoop_requests, cutAfterFirst_of_none _ _ hq']

theorem recordLoop_stdout (getAll : String → GetAllReply) (u : String)
    (rs : List (List DBusValue)) (io : Streams) :
    (recordLoop getAll u rs io).2.stdout = io.stdout := by
  induction rs generalizing io with
  | nil => rfl
  | cons r rest ih =>
    simp only [recordLoop, fieldLoop_fst]
    by_cases hq : (objectPaths r).any (inspect getAll u) <;>
      simp [hq, ih, fieldLoop_stdout]

theorem mem_objectPaths (p : String) (fs : List DBusValue) :
    p ∈ objectPaths fs ↔ DBusValue.objectPath p ∈ fs := by
  induction fs with
  | nil => simp [objectPaths]
  | cons f rest ih => cases f <;> simp [objectPaths, ih]

theorem mem_handles (p : String) (rs : List (List DBusValue)) :
    p ∈ handles rs ↔ ∃ r ∈ rs, DBusValue.objectPath p ∈ r := by
  induction rs with
  | nil => simp [handles]
  | cons r rest ih => simp [handles, ih, mem_objectPaths]

theorem hasSession_stdout (ls : ListSessionsReply) (getAll : String → GetAllReply)
    (u : String) (io : Streams) : (hasSession ls getAll u io).2.stdout = io.stdout := by
  cases ls with
  | error m => rfl
  | notArray => rfl
  | array rs => exact recordLoop_stdout getAll u rs io

theorem hasSession_array_iff (U : String) (records : List (List DBusValue))
    (getAll : String → GetAllReply) (io : Streams) :
    (hasSession (.array records) getAll U io).1 = true ↔
      ∃ record ∈ records, ∃ p, DBusValue.objectPath p ∈ record ∧ inspect getAll U p = true := by
  show (recordLoop getAll U records io).1 = true ↔ _
  rw [recordLoop_fst, List.any_eq_true]
  constructor
  · rintro ⟨p, hp, hq⟩
    obtain ⟨r, hr, hpr⟩ := (mem_handles p records).1 hp
    exact ⟨r, hr, p, hpr, hq⟩
  · rintro ⟨r, hr, p, hpr, hq⟩
    exact ⟨p, (mem_handles p records).2 ⟨r, hr, hpr⟩, hq⟩

theorem mem_removeHandle (h p : String) (r : List DBusValue) :
    DBusValue.objectPath p ∈ removeHandle h r ↔ DBusValue.objectPath p ∈ r ∧ p ≠ h := by
  simp [removeHandle]

theorem hasSession_removeHandle (U h : String) (records : List (List DBusValue))
    (getAll : String → GetAllReply) (io : Streams) (hh : inspect getAll U h = false) :
    (hasSession (.array records) getAll U io).1 =
      (hasSession (.array (records.map (removeHandle h))) getAll U io).1 := by
  rw [Bool.eq_iff_iff, hasSession_array_iff, hasSession_array_iff]
  constructor
  · rintro ⟨r, hr, p, hp, hq⟩
    refine ⟨removeHandle h r, List.mem_map_of_mem _ hr, p, ?_, hq⟩
    rw [mem_removeHandle]
    refine ⟨hp, ?_⟩
    rintro rfl
    rw [hh] at hq
    exact Bool.false_ne_true hq
  · rintro ⟨r', hr', p, hp, hq⟩
    obtain ⟨r, hr, rfl⟩ := List.mem_map.1 hr'
    exact ⟨r, hr, p, ((mem_removeHandle h p r).1 hp).1, hq⟩

theorem hasSession_through (U h : String) (records : List (List DBusValue))
    (getAll : String → GetAllReply) (io : Streams) (before after : List String)
    (hh : inspect getAll U h = false)
    (hseq : handles records = before ++ h :: after)
    (hbefore : ∀ b ∈ before, (checkSessionForUser getAll b U Streams.empty).1 = false) :
    (hasSession (.array records) getAll U io).2.requests
      = io.requests ++ before ++ h :: cutAfterFirst (inspect getAll U) after ∧
    ((hasSession (.array records) getAll U io).1 = true ↔
      ∃ a ∈ after, (checkSessionForUser getAll a U Streams.empty).1 = true) := by
  have hb : before.any (inspect getAll U) = false := by
    rw [List.any_eq_false]
    intro b hb
    simpa [inspect] using hbefore b hb
  refine ⟨?_, ?_⟩
  · show (recordLoop getAll U records io).2.requests = _
    rw [recordLoop_requests, hseq, cutAfterFirst_append, hb]
    simp [cutAfterFirst_cons, hh]
  · show (recordLoop getAll U records io).1 = true ↔ _
    rw [recordLoop_fst, hseq, List.any_append, hb, List.any_cons, hh]
    simp [inspect]

theorem value_unique_of_nodup_keys (k : String) (v w : DBusValue) :
    ∀ (es : List (String × DBusValue)), (es.map Prod.fst).Nodup →
      (k, v) ∈ es → (k, w) ∈ es → v = w := by
  intro es
  induction es with
  | nil => intro _ hv; cases hv
  | cons e rest ih =>
    intro hnd hv hw
    rw [List.map_cons, List.nodup_cons] at hnd
    rcases List.mem_cons.1 hv with hv1 | hv2
    · rcases List.mem_cons.1 hw with hw1 | hw2
      · exact (Prod.mk.inj (hv1.trans hw1.symm)).2
      · refine (hnd.1 ?_).elim
        rw [← hv1]
        exact List.mem_map.2 ⟨(k, w), hw2, rfl⟩
    · rcases List.mem_cons.1 hw with hw1 | hw2
      · refine (hnd.1 ?_).elim
        rw [← hw1]
        exact List.mem_map.2 ⟨(k, v), hv2, rfl⟩
      · exact ih hnd.2 hv2 hw2

theorem propertyStep_other (u : String) (e : String × DBusValue) (flags : Bool × Bool)
    (hn : e.1 ≠ "Name") (ht : e.1 ≠ "Type") : propertyStep u e flags = flags := by
  simp [propertyStep, hn, ht]

theorem propertyLoop_append (u : String) (a b : List (String × DBusValue))
    (flags : Bool × Bool) :
    propertyLoop u (a ++ b) flags = propertyLoop u b (propertyLoop u a flags) := by
  induction a generalizing flags with
  | nil => rfl
  | cons e rest ih =>
    show propertyLoop u (rest ++ b) (propertyStep u e flags) = _
    exact ih _

theorem propertyLoop_others (u : String) (extra : List (String × DBusValue))
    (flags : Bool × Bool) (h : ∀ e ∈ extra, e.1 ≠ "Name" ∧ e.1 ≠ "Type") :
    propertyLoop u extra flags = flags := by
  induction extra generalizing flags with
  | nil => rfl
  | cons e rest ih =>
    have he := h e (List.mem_cons_self e rest)
    simp only [propertyLoop, propertyStep_other u e flags he.1 he.2]
    exact ih flags (fun x hx => h x (List.mem_cons_of_mem e hx))

theorem propertyLoop_filter (u : String) (es : List (String × DBusValue))
    (flags : Bool × Bool) :
    propertyLoop u (es.filter (fun e => decide (e.1 = "Name" ∨ e.1 = "Type"))) flags
      = propertyLoop u es flags := by
  induction es generalizing flags with
  | nil => rfl
  | cons e rest ih =>
    by_cases hk : e.1 = "Name" ∨ e.1 = "Type"
    · rw [List.filter_cons_of_pos (by simpa using hk)]
      exact ih _
    · rw [List.filter_cons_of_neg (by simpa using hk)]
      have hn : e.1 ≠ "Name" := fun h => hk (Or.inl h)
      have ht : e.1 ≠ "Type" := fun h => hk (Or.inr h)
      show _ = propertyLoop u rest (propertyStep u e flags)
      rw [propertyStep_other u e flags hn ht]
      exact ih flags

/-! ## The claims -/

/-- Claim C1: with an array-shaped `ListSessions` reply and an oracle whose
`GetAll` replies are all arrays of entries, `hasSession U` returns true exactly
when some object-path field of some record names a session whose entries
contain `Name` holding the string `U` and `Type` holding the string `x11` or
`wayland`.  In particular the result is false when no session has a graphical
`Type` entry, false when no session has a `Name` entry equal to `U`, and false
for the empty session list. -/
theorem C1_hasSession_iff_graphical_session (U : String) (records : List (List DBusValue))
    (props : String → List (String × DBusValue)) (io : Streams) :
    ((hasSession (.array records) (fun p => .array (props p)) U io).1 = true ↔
      ∃ record ∈ records, ∃ p, DBusValue.objectPath p ∈ record ∧
        GraphicalSessionOf U (props p)) ∧
    ((∀ record ∈ records, ∀ p, DBusValue.objectPath p ∈ record →
        ∀ e ∈ props p, e.1 = "Type" → e.2 ≠ .string "x11" ∧ e.2 ≠ .string "wayland") →
      (hasSession (.array records) (fun p => .array (props p)) U io).1 = false) ∧
    ((∀ record ∈ records, ∀ p, DBusValue.objectPath p ∈ record →
        ∀ e ∈ props p, e.1 = "Name" → e.2 ≠ .string U) →
      (hasSession (.array records) (fun p => .array (props p)) U io).1 = false) ∧
    (hasSession (.array []) (fun p => .array (props p)) U io).1 = false := by
  have key : (hasSession (.array records) (fun p => .array (props p)) U io).1 = true ↔
      ∃ record ∈ records, ∃ p, DBusValue.objectPath p ∈ record ∧
        GraphicalSessionOf U (props p) := by
    rw [hasSession_array_iff]
    constructor
    · rintro ⟨r, hr, p, hp, hq⟩
      exact ⟨r, hr, p, hp, (inspect_array _ U p (props p) rfl).1 hq⟩
    · rintro ⟨r, hr, p, hp, hq⟩
      exact ⟨r, hr, p, hp, (inspect_array _ U p (props p) rfl).2 hq⟩
  refine ⟨key, ?_, ?_, rfl⟩
  · intro hno
    rw [← Bool.not_eq_true, key]
    rintro ⟨r, hr, p, hp, -, e, he, hk, hv⟩
    have := hno r hr p hp e he hk
    rcases hv with hv | hv
    · exact this.1 hv
    · exact this.2 hv
  · intro hno
    rw [← Bool.not_eq_true, key]
    rintro ⟨r, hr, p, hp, ⟨e, he, hk, hv⟩, -⟩
    exact hno r hr p hp e he hk hv

/-- Witness of C1 (scenario 2 of the specification): the only session belongs
to `alice` and has type `tty`, so the query for `alice` gives false. -/
theorem C1_witness :
    (hasSession (.array [[.string "c1", .uint32 1000, .string "alice", .string "seat0",
        .objectPath "/org/freedesktop/login1/session/c1"]])
      (fun _ => .array [("Name", .string "alice"), ("Type", .string "tty")])
      "alice" Streams.empty).1 = false :=
  (C1_hasSession_iff_graphical_session "alice"
    [[.string "c1", .uint32 1000, .string "alice", .string "seat0",
      .objectPath "/org/freedesktop/login1/session/c1"]]
    (fun _ => [("Name", .string "alice"), ("Type", .string "tty")]) Streams.empty).2.1
    (fun _ _ _ _ => by decide)

/-- Counterexample to C2: `ListSessions` answers with the bus error
`Access denied`; the error text reaches the error stream, but the program
prints the not-found line and exits with status 0. -/
theorem C2_counterexample :
    main ⟨none, .error "Access denied", fun _ => .notArray⟩ "user-logged-in" ["alice"] =
      (0, ⟨[], "error: Access denied.\n",
        "User alice does not have an active session.\n"⟩) := by
  decide

/-- Claim C2 as amended: when the `ListSessions` request returns a bus-level
error, `hasSession` writes the error text to the error stream, issues no
`GetAll` request and returns false; `main` then prints the not-found line for
the user and exits with status 0. -/
theorem C2_listSessions_error_reported_as_not_found (U message prog : String)
    (getAll : String → GetAllReply) (io : Streams) :
    hasSession (.error message) getAll U io
      = (false, ⟨io.requests, io.stderr ++ ("error: " ++ message ++ ".") ++ "\n", io.stdout⟩) ∧
    main ⟨none, .error message, getAll⟩ prog [U]
      = (0, ⟨[], "error: " ++ message ++ "." ++ "\n",
          "User " ++ U ++ " does not have an active session." ++ "\n"⟩) := by
  constructor
  · rfl
  · simp [main, hasSession, Streams.cerr, Streams.cout, Streams.empty, EXIT_SUCCESS]

/-- Counterexample to C3: `GetAll` fails for the first of two handles and the
second handle is a graphical session of `alice`; both handles are inspected
and the session is reported as found. -/
theorem C3_counterexample :
    hasSession (.array [[.objectPath "/session/1"], [.objectPath "/session/2"]])
        (fun p => if p = "/session/1" then .error "Access denied"
          else .array [("Name", .string "alice"), ("Type", .string "x11")])
        "alice" Streams.empty
      = (true, ⟨["/session/1", "/session/2"], "error: Access denied.\n", ""⟩) := by
  decide

/-- Claim C3 as amended: when the `GetAll` request for a handle `h` returns a
bus-level error, the Inspector writes the error text to the error stream and
returns false for `h`, and the enumeration continues: if no handle before `h`
matched, the handles after `h` are inspected in order up to and including the
first match, and the result is true exactly when one of them matches. -/
theorem C3_getAll_error_is_non_match (U h message : String)
    (records : List (List DBusValue)) (getAll : String → GetAllReply) (io : Streams)
    (before after : List String)
    (herr : getAll h = .error message)
    (hseq : handles records = before ++ h :: after)
    (hbefore : ∀ b ∈ before, (checkSessionForUser getAll b U Streams.empty).1 = false) :
    checkSessionForUser getAll h U io
      = (false, ⟨io.requests ++ [h], io.stderr ++ ("error: " ++ message ++ ".") ++ "\n",
          io.stdout⟩) ∧
    (hasSession (.array records) getAll U io).2.requests
      = io.requests ++ before ++ h :: cutAfterFirst (inspect getAll U) after ∧
    ((hasSession (.array records) getAll U io).1 = true ↔
      ∃ a ∈ after, (checkSessionForUser getAll a U Streams.empty).1 = true) := by
  have hh : inspect getAll U h = false := inspect_error getAll U h message herr
  refine ⟨?_, hasSession_through U h records getAll io before after hh hseq hbefore⟩
  unfold checkSessionForUser
  rw [herr]
  rfl

/-- Witness of C3 as amended: the failing handle comes second of three, and
the third is a graphical session of `alice`. -/
theorem C3_witness :
    (hasSession (.array [[.objectPath "/session/1"],
          [.objectPath "/session/2", .objectPath "/session/3"]])
        (fun p => if p = "/session/2" then .error "Access denied"
          else if p = "/session/3" then
            .array [("Name", .string "alice"), ("Type", .string "wayland")]
          else .array [("Name", .string "bob"), ("Type", .string "x11")])
        "alice" Streams.empty).2.requests
      = [] ++ ["/session/1"] ++
          "/session/2" :: cutAfterFirst
            (inspect (fun p => if p = "/session/2" then .error "Access denied"
              else if p = "/session/3" then
                .array [("Name", .string "alice"), ("Type", .string "wayland")]
              else .array [("Name", .string "bob"), ("Type", .string "x11")]) "alice")
            ["/session/3"] :=
  (C3_getAll_error_is_non_match "alice" "/session/2" "Access denied"
    [[.objectPath "/session/1"], [.objectPath "/session/2", .objectPath "/session/3"]]
    (fun p => if p = "/session/2" then .error "Access denied"
          else if p = "/session/3" then
            .array [("Name", .string "alice"), ("Type", .string "wayland")]
          else .array [("Name", .string "bob"), ("Type", .string "x11")])
    Streams.empty ["/session/1"] ["/session/3"] (by decide) (by decide) (by decide)).2.1

/-- Claim C4: for an array-shaped `ListSessions` reply the `GetAll` requests
issued by `hasSession` are the object-path handles of the reply in reply order
(record by record, field by field), cut off immediately after the first
handle the Inspector accepts: if no handle matches, every handle is requested
once, in order; if `h` is the first match, exactly the handles before it and
`h` itself are requested. -/
theorem C4_requests_in_order_until_first_match (U : String)
    (records : List (List DBusValue)) (getAll : String → GetAllReply) (io : Streams) :
    (hasSession (.array records) getAll U io).2.requests
      = io.requests ++ cutAfterFirst (inspect getAll U) (handles records) ∧
    ((∀ h ∈ handles records, (checkSessionForUser getAll h U Streams.empty).1 = false) →
      (hasSession (.array records) getAll U io).2.requests
        = io.requests ++ handles records) ∧
    (∀ before h after, handles records = before ++ h :: after →
      (∀ b ∈ before, (checkSessionForUser getAll b U Streams.empty).1 = false) →
      (checkSessionForUser getAll h U Streams.empty).1 = true →
      (hasSession (.array records) getAll U io).2.requests = io.requests ++ before ++ [h]) := by
  have key : (hasSession (.array records) getAll U io).2.requests
      = io.requests ++ cutAfterFirst (inspect getAll U) (handles records) :=
    recordLoop_requests getAll U records io
  refine ⟨key, ?_, ?_⟩
  · intro hnone
    rw [key, cutAfterFirst_of_none]
    rw [List.any_eq_false]
    intro h hh
    simpa [inspect] using hnone h hh
  · intro before h after hseq hbefore hmatch
    have hb : before.any (inspect getAll U) = false := by
      rw [List.any_eq_false]
      intro b hb
      simpa [inspect] using hbefore b hb
    have hh : inspect getAll U h = true := hmatch
    rw [key, hseq, cutAfterFirst_append, hb]
    simp [cutAfterFirst_cons, hh]

/-- Witness of C4: three handles in two records, the second one matches; the
first two are requested, the third is not. -/
theorem C4_witness :
    (hasSession (.array [[.string "1", .objectPath "/session/1"],
          [.objectPath "/session/2", .objectPath "/session/3"]])
        (fun p => if p = "/session/1" then
            .array [("Name", .string "bob"), ("Type", .string "x11")]
          else .array [("Name", .string "alice"), ("Type", .string "wayland")])
        "alice" Streams.empty).2.requests = [] ++ ["/session/1"] ++ ["/session/2"] :=
  (C4_requests_in_order_until_first_match "alice"
    [[.string "1", .objectPath "/session/1"],
      [.objectPath "/session/2", .objectPath "/session/3"]]
    (fun p => if p = "/session/1" then
        .array [("Name", .string "bob"), ("Type", .string "x11")]
      else .array [("Name", .string "alice"), ("Type", .string "wayland")])
    Streams.empty).2.2 ["/session/1"] "/session/2" ["/session/3"]
    (by decide) (by decide) (by decide)

/-- Claim C5: when the `GetAll` reply for a handle `h` is not array-shaped,
`checkSessionForUser` logs the anomaly and returns false for `h`, and
`hasSession` goes on with the remaining handles: its result equals the result
for the reply with `h` removed, and if no handle before `h` matched, the
handles after `h` are inspected up to the first match and the result is true
exactly when one of them matches. -/
theorem C5_malformed_getAll_is_non_match (U h : String)
    (records : List (List DBusValue)) (getAll : String → GetAllReply) (io : Streams)
    (hbad : getAll h = .notArray) :
    checkSessionForUser getAll h U io
      = (false, ⟨io.requests ++ [h], io.stderr ++ "Argument is not an array" ++ "\n",
          io.stdout⟩) ∧
    (hasSession (.array records) getAll U io).1
      = (hasSession (.array (records.map (removeHandle h))) getAll U io).1 ∧
    (∀ before after, handles records = before ++ h :: after →
      (∀ b ∈ before, (checkSessionForUser getAll b U Streams.empty).1 = false) →
      (hasSession (.array records) getAll U io).2.requests
        = io.requests ++ before ++ h :: cutAfterFirst (inspect getAll U) after ∧
      ((hasSession (.array records) getAll U io).1 = true ↔
        ∃ a ∈ after, (checkSessionForUser getAll a U Streams.empty).1 = true)) := by
  have hh : inspect getAll U h = false := inspect_notArray getAll U h hbad
  refine ⟨?_, hasSession_removeHandle U h records getAll io hh, ?_⟩
  · unfold checkSessionForUser
    rw [hbad]
    rfl
  · intro before after hseq hbefore
    exact hasSession_through U h records getAll io before after hh hseq hbefore

/-- Witness of C5 (scenario 5 of the specification): the first of two handles
has a malformed `GetAll` reply, the second is a graphical session of `alice`
and is found. -/
theorem C5_witness :
    (hasSession (.array [[.objectPath "/session/1"], [.objectPath "/session/2"]])
        (fun p => if p = "/session/1" then .notArray
          else .array [("Name", .string "alice"), ("Type", .string "x11")])
        "alice" Streams.empty).1
      = (hasSession (.array ([[.objectPath "/session/1"], [.objectPath "/session/2"]].map
            (removeHandle "/session/1")))
        (fun p => if p = "/session/1" then .notArray
          else .array [("Name", .string "alice"), ("Type", .string "x11")])
        "alice" Streams.empty).1 :=
  (C5_malformed_getAll_is_non_match "alice" "/session/1"
    [[.objectPath "/session/1"], [.objectPath "/session/2"]]
    (fun p => if p = "/session/1" then .notArray
      else .array [("Name", .string "alice"), ("Type", .string "x11")])
    Streams.empty (by decide)).2.1

/-- Claim C6: when the top-level value of the `ListSessions` reply is not an
array, `hasSession` issues no `GetAll` request and returns false, and `main`
exits with status 0 after printing the not-found line. -/
theorem C6_listSessions_not_array (U prog : String) (getAll : String → GetAllReply)
    (io : Streams) :
    (hasSession .notArray getAll U io).1 = false ∧
    (hasSession .notArray getAll U io).2.requests = io.requests ∧
    (main ⟨none, .notArray, getAll⟩ prog [U]).1 = 0 ∧
    (main ⟨none, .notArray, getAll⟩ prog [U]).2.requests = [] ∧
    (main ⟨none, .notArray, getAll⟩ prog [U]).2.stdout
      = "User " ++ U ++ " does not have an active session." ++ "\n" := by
  refine ⟨rfl, rfl, ?_, ?_, ?_⟩ <;>
    simp [main, hasSession, Streams.cerr, Streams.cout, Streams.empty, EXIT_SUCCESS]

/-- Claim C7: entries whose key is neither `Name` nor `Type` are skipped
whatever their variant holds: `checkSessionForUser` gives the same result and
the same effects on a property list and on that list with all such entries
removed, inserting a block of such entries at any position changes neither,
and nothing is written to the error stream. -/
theorem C7_unrecognised_keys_are_skipped (U p : String)
    (front extra back : List (String × DBusValue)) (io : Streams)
    (hextra : ∀ e ∈ extra, e.1 ≠ "Name" ∧ e.1 ≠ "Type") :
    checkSessionForUser (fun _ => .array (front ++ extra ++ back)) p U io
      = checkSessionForUser (fun _ => .array (front ++ back)) p U io ∧
    (checkSessionForUser (fun _ => .array (front ++ extra ++ back)) p U io).2.stderr
      = io.stderr ∧
    (∀ entries : List (String × DBusValue),
      checkSessionForUser (fun _ => .array entries) p U io
        = checkSessionForUser (fun _ => .array
            (entries.filter (fun e => decide (e.1 = "Name" ∨ e.1 = "Type")))) p U io) := by
  refine ⟨?_, rfl, ?_⟩
  · simp only [checkSessionForUser, propertyLoop_append,
      propertyLoop_others U extra _ hextra]
  · intro entries
    simp only [checkSessionForUser, propertyLoop_filter]

/-- Witness of C7: a boolean `Active`, a container `Seat` and a numeric
`Timestamp` around the two recognised entries. -/
theorem C7_witness :
    checkSessionForUser (fun _ => .array ([("Name", .string "alice")] ++
        [("Active", .boolean true), ("Seat", .container), ("Timestamp", .uint64 7)] ++
        [("Type", .string "x11")])) "/session/1" "alice" Streams.empty
      = checkSessionForUser (fun _ => .array ([("Name", .string "alice")] ++
        [("Type", .string "x11")])) "/session/1" "alice" Streams.empty :=
  (C7_unrecognised_keys_are_skipped "alice" "/session/1" [("Name", .string "alice")]
    [("Active", .boolean true), ("Seat", .container), ("Timestamp", .uint64 7)]
    [("Type", .string "x11")] Streams.empty (by decide)).1

/-- Claim C8: for a property set with unique keys in which `Name` is absent or
holds a non-string variant, or `Type` is absent or holds a non-string variant,
`checkSessionForUser` returns false and writes nothing to the error stream. -/
theorem C8_missing_or_mistyped_key_gives_false (U p : String)
    (entries : List (String × DBusValue)) (io : Streams)
    (hkeys : (entries.map Prod.fst).Nodup)
    (hbad :
      ((∀ v, ("Name", v) ∉ entries) ∨ ∃ v, ("Name", v) ∈ entries ∧ ∀ s, v ≠ .string s) ∨
      ((∀ v, ("Type", v) ∉ entries) ∨ ∃ v, ("Type", v) ∈ entries ∧ ∀ s, v ≠ .string s)) :
    checkSessionForUser (fun _ => .array entries) p U io
      = (false, ⟨io.requests ++ [p], io.stderr, io.stdout⟩) := by
  have hres : ¬ GraphicalSessionOf U entries := by
    rintro ⟨⟨e, he, hk, hv⟩, ⟨e', he', hk', hv'⟩⟩
    have hmem : ("Name", DBusValue.string U) ∈ entries := by
      rw [← hk, ← hv]; exact he
    rcases hbad with (habs | ⟨v, hv1, hv2⟩) | (habs | ⟨v, hv1, hv2⟩)
    · exact habs _ hmem
    · exact hv2 U (value_unique_of_nodup_keys "Name" v _ entries hkeys hv1 hmem)
    · rw [← hk'] at habs
      exact habs e'.2 he'
    · have hmem' : ("Type", e'.2) ∈ entries := by
        rw [← hk']; exact he'
      have := value_unique_of_nodup_keys "Type" v _ entries hkeys hv1 hmem'
      rcases hv' with hv' | hv'
      · exact hv2 "x11" (this.trans hv')
      · exact hv2 "wayland" (this.trans hv')
  have hfalse : ((propertyLoop U entries (false, false)).1 &&
      (propertyLoop U entries (false, false)).2) = false := by
    rw [← Bool.not_eq_true, propertyLoop_true_iff]
    exact hres
  simp only [checkSessionForUser, hfalse]
  rfl

/-- Witness of C8: `Name` holds a number instead of a string. -/
theorem C8_witness :
    checkSessionForUser
        (fun _ => .array [("Name", .uint32 1000), ("Type", .string "x11")])
        "/session/1" "alice" Streams.empty
      = (false, ⟨Streams.empty.requests ++ ["/session/1"], Streams.empty.stderr,
          Streams.empty.stdout⟩) :=
  C8_missing_or_mistyped_key_gives_false "alice" "/session/1"
    [("Name", .uint32 1000), ("Type", .string "x11")] Streams.empty (by decide)
    (Or.inl (Or.inr ⟨.uint32 1000, by decide, fun s => by simp⟩))

/-- Claim C9: for two `ListSessions` replies whose record lists are
permutations of one another and the same `GetAll` oracle, `hasSession U`
returns the same boolean; and as soon as one record of the reply names a
session with `Name` equal to `U` and `Type` `x11` or `wayland`, the result is
true wherever that record stands. -/
theorem C9_result_invariant_under_permutation (U : String)
    (records records' : List (List DBusValue)) (getAll : String → GetAllReply)
    (io io' : Streams) (hperm : records.Perm records') :
    (hasSession (.array records) getAll U io).1
      = (hasSession (.array records') getAll U io').1 ∧
    (∀ record ∈ records, ∀ p entries, DBusValue.objectPath p ∈ record →
      getAll p = .array entries → GraphicalSessionOf U entries →
      (hasSession (.array records') getAll U io').1 = true) := by
  constructor
  · rw [Bool.eq_iff_iff, hasSession_array_iff, hasSession_array_iff]
    constructor
    · rintro ⟨r, hr, rest⟩
      exact ⟨r, hperm.mem_iff.1 hr, rest⟩
    · rintro ⟨r, hr, rest⟩
      exact ⟨r, hperm.mem_iff.2 hr, rest⟩
  · intro r hr p entries hp hget hmatch
    rw [hasSession_array_iff]
    exact ⟨r, hperm.mem_iff.1 hr, p, hp, (inspect_array getAll U p entries hget).2 hmatch⟩

/-- Witness of C9 (scenario 3 of the specification and its reversal). -/
theorem C9_witness :
    (hasSession (.array [[.objectPath "/session/bob"], [.objectPath "/session/alice"]])
        (fun p => if p = "/session/bob" then
            .array [("Name", .string "bob"), ("Type", .string "wayland")]
          else .array [("Name", .string "alice"), ("Type", .string "x11")])
        "alice" Streams.empty).1
      = (hasSession (.array [[.objectPath "/session/alice"], [.objectPath "/session/bob"]])
        (fun p => if p = "/session/bob" then
            .array [("Name", .string "bob"), ("Type", .string "wayland")]
          else .array [("Name", .string "alice"), ("Type", .string "x11")])
        "alice" Streams.empty).1 :=
  (C9_result_invariant_under_permutation "alice"
    [[.objectPath "/session/bob"], [.objectPath "/session/alice"]]
    [[.objectPath "/session/alice"], [.objectPath "/session/bob"]]
    (fun p => if p = "/session/bob" then
        .array [("Name", .string "bob"), ("Type", .string "wayland")]
      else .array [("Name", .string "alice"), ("Type", .string "x11")])
    Streams.empty Streams.empty (List.Perm.swap _ _ [])).1

/-- Claim C10: when `main` is called with exactly one argument `U` and the bus
connection succeeds, the exit status is 0 whether or not a session is found,
and standard output receives exactly one line: `User U has an active session.`
when `hasSession U` is true, `User U does not have an active session.`
otherwise. -/
theorem C10_main_exit_status_and_output (U prog : String) (listSessions : ListSessionsReply)
    (getAll : String → GetAllReply) :
    (main ⟨none, listSessions, getAll⟩ prog [U]).1 = 0 ∧
    (main ⟨none, listSessions, getAll⟩ prog [U]).2.stdout
      = (if (hasSession listSessions getAll U Streams.empty).1 = true then
          "User " ++ U ++ " has an active session." ++ "\n"
        else "User " ++ U ++ " does not have an active session." ++ "\n") := by
  simp only [main]
  by_cases hfound : (hasSession listSessions getAll U Streams.empty).1 = true
  · simp only [hfound, if_true]
    refine ⟨rfl, ?_⟩
    simp [Streams.cout, hasSession_stdout, Streams.empty]
  · simp only [hfound]
    refine ⟨rfl, ?_⟩
    simp [Streams.cout, hasSession_stdout, Streams.empty]

end UserLoggedIn
